import Mathlib

/-
Verification of the Savings-Web backend (src/app.py).

Shallow embedding conventions:
- A Python `datetime.date` object is modelled as an integer day number
  (days since 1970-01-01, proleptic Gregorian).  `timedelta` addition and
  date comparison in the source become integer addition and comparison.
- The string boundary (`parse_date` / `format_date`, which wrap
  `datetime.strptime(s, "%Y-%m-%d")` and `date.strftime("%Y-%m-%d")`)
  is modelled on calendar triples (year, month, day) with real calendar
  validity (leap years, Python's MINYEAR=1 / MAXYEAR=9999).
  `daysFromCivil` / `civilFromDays` convert between the two views
  (the standard era / year-of-era civil-calendar computation).
- SQLite REAL columns (`amount` and the settings fields) are modelled as
  `Int`: no claim depends on floating-point arithmetic, only on which
  fields are stored, merged or defaulted.
- The expenses table is a `List Expense` in rowid (insertion) order.  A
  SELECT without ORDER BY returns matching rows in that storage order; a
  SELECT with ORDER BY date, id is modelled with an insertion sort on the
  (date, id) key.  SQLite compares TEXT with memcmp, modelled by `lexLt`
  on the char lists (identical to byte order for these ASCII strings).
- JSON request bodies are records of `Option` fields: `none` models an
  absent key.  (A key present with JSON null is not distinguished; no
  claim depends on that corner.)
-/

namespace SavingsWeb

/-- Python `date.weekday()` on a day number (days since 1970-01-01, which
was a Thursday): Monday = 0 … Sunday = 6. -/
def pyWeekday (n : Int) : Int := (n + 3) % 7

/-- Embeds `get_week_range` (src/app.py lines 54-78): days_since_sunday =
(weekday + 1) % 7, start = date - days_since_sunday, end = start + 6. -/
def get_week_range (n : Int) : Int × Int :=
  let dss := (pyWeekday n + 1) % 7
  (n - dss, n - dss + 6)

/-- Embeds `get_day_from_date` (lines 99-114) on a date object: the
day number 0-6 with Sunday = 0, i.e. (weekday + 1) % 7. -/
def get_day_from_date (n : Int) : Int := (pyWeekday n + 1) % 7

/-- Embeds `get_date_from_day` (lines 116-127): week start of the
reference date plus `day_number` days.  No 0-6 range check, as in the
source. -/
def get_date_from_day (day : Int) (ref : Int) : Int :=
  (get_week_range ref).1 + day

/-- Gregorian leap-year test, as used by `datetime`. -/
def isLeap (y : Nat) : Bool := y % 4 = 0 && (y % 100 ≠ 0 || y % 400 = 0)

/-- Days in a month of the Gregorian calendar. -/
def daysInMonth (y m : Nat) : Nat :=
  if m = 2 then (if isLeap y then 29 else 28)
  else if m = 4 || m = 6 || m = 9 || m = 11 then 30
  else 31

/-- Validity of a calendar triple for Python `datetime.date`: year within
MINYEAR..MAXYEAR (1..9999), month 1..12, day 1..days-in-month. -/
def isValidDate (y m d : Nat) : Bool :=
  1 ≤ y && y ≤ 9999 && 1 ≤ m && m ≤ 12 && 1 ≤ d && d ≤ daysInMonth y m

/-- Day number (days since 1970-01-01) of a calendar triple; the standard
civil-from-date computation (era/year-of-era/day-of-year), matching
`datetime.date.toordinal` up to the epoch shift. -/
def daysFromCivil (y m d : Nat) : Int :=
  let y2 := if m ≤ 2 then y - 1 else y
  let era := y2 / 400
  let yoe := y2 % 400
  let mp := (m + 9) % 12
  let doy := (153 * mp + 2) / 5 + d - 1
  let doe := yoe * 365 + yoe / 4 - yoe / 100 + doy
  (era * 146097 + doe : Int) - 719468

/-- Calendar triple of a day number; inverse of `daysFromCivil` on the
valid range (used only to format computed dates). -/
def civilFromDays (z : Int) : Nat × Nat × Nat :=
  let n := (z + 719468).toNat
  let era := n / 146097
  let doe := n % 146097
  let yoe := (doe - doe / 1460 + doe / 36524 - doe / 146096) / 365
  let y := yoe + era * 400
  let doy := doe - (365 * yoe + yoe / 4 - yoe / 100)
  let mp := (5 * doy + 2) / 153
  let d := doy - (153 * mp + 2) / 5 + 1
  let m := if mp < 10 then mp + 3 else mp - 9
  (if m ≤ 2 then y + 1 else y, m, d)

/-- Numeric value of an ASCII digit character, none for a non-digit;
models one `\d`-class character of the `_strptime` regex. -/
def digitVal (c : Char) : Option Nat := if c.isDigit then some (c.toNat - 48) else none

/-- ASCII digit character of a value 0-9. -/
def digitChar (n : Nat) : Char := Char.ofNat (48 + n)

/-- Zero-padded four-digit decimal rendering, as strftime's %Y produces
for years 1..9999 (CPython documents %Y as zero-padded: 0001, 0002, …). -/
def pad4 (n : Nat) : List Char :=
  [digitChar (n / 1000 % 10), digitChar (n / 100 % 10), digitChar (n / 10 % 10), digitChar (n % 10)]

/-- Zero-padded two-digit decimal rendering (strftime %m / %d). -/
def pad2 (n : Nat) : List Char :=
  [digitChar (n / 10 % 10), digitChar (n % 10)]

/-- Embeds `format_date` (lines 35-52) on a calendar triple:
strftime("%Y-%m-%d"). -/
def format_date (y m d : Nat) : String :=
  ⟨pad4 y ++ '-' :: pad2 m ++ '-' :: pad2 d⟩

/-- Exactly four digits, as the `_strptime` regex for %Y demands. -/
def parse4 : List Char → Option (Nat × List Char)
  | c1 :: c2 :: c3 :: c4 :: rest =>
    match digitVal c1, digitVal c2, digitVal c3, digitVal c4 with
    | some a, some b, some c, some d => some (1000 * a + 100 * b + 10 * c + d, rest)
    | _, _, _, _ => none
  | _ => none

/-- One or two digits, greedily.  `_strptime` matches %m with the regex
1[0-2]|0[1-9]|[1-9] and %d with 3[01]|[12]\d|0[1-9]|[1-9]; combined with
the later range/validity check of the `datetime` constructor this
greedy two-digit read accepts and rejects exactly the same strings. -/
def parse2 : List Char → Option (Nat × List Char)
  | c1 :: c2 :: rest =>
    match digitVal c1, digitVal c2 with
    | some a, some b => some (10 * a + b, rest)
    | some a, none => some (a, c2 :: rest)
    | none, _ => none
  | [c1] =>
    match digitVal c1 with
    | some a => some (a, [])
    | none => none
  | [] => none

/-- One expected literal character (the dashes of "%Y-%m-%d"). -/
def expectChar (c : Char) : List Char → Option (List Char)
  | x :: r => if x = c then some r else none
  | [] => none

/-- Embeds `parse_date` (lines 18-33): strict strptime(s, "%Y-%m-%d")
followed by the `datetime.date` constructor's validity check, with every
failure (including the empty string) mapped to none. -/
def parse_date (s : String) : Option (Nat × Nat × Nat) :=
  (parse4 s.data).bind fun yr =>
  (expectChar '-' yr.2).bind fun r2 =>
  (parse2 r2).bind fun mr =>
  (expectChar '-' mr.2).bind fun r4 =>
  (parse2 r4).bind fun dr =>
  if dr.2.isEmpty && isValidDate yr.1 mr.1 dr.1 then some (yr.1, mr.1, dr.1) else none

/-- Day number of a parsed calendar triple. -/
def toDayNumber (t : Nat × Nat × Nat) : Int := daysFromCivil t.1 t.2.1 t.2.2

/-- Embeds the string branch of `get_day_from_date` (lines 108-111): an
unparseable string falls back to day 0. -/
def get_day_from_date_of_str (s : String) : Int :=
  match parse_date s with
  | none => 0
  | some t => get_day_from_date (toDayNumber t)

/-- Formats a day number as its ISO string (format_date after converting
the date object back to a calendar triple). -/
def format_days (n : Int) : String :=
  let t := civilFromDays n
  format_date t.1 t.2.1 t.2.2

/-- Strict byte-order "less than" on char lists: SQLite's memcmp TEXT
comparison (equal to code-point order on these ASCII date strings). -/
def lexLt : List Char → List Char → Bool
  | [], [] => false
  | [], _ :: _ => true
  | _ :: _, [] => false
  | x :: xs, y :: ys =>
    if x.toNat < y.toNat then true
    else if x.toNat = y.toNat then lexLt xs ys
    else false

/-- Byte-order "less than or equal" on strings, via `lexLt`. -/
def strLe (a b : String) : Bool := !(lexLt b.data a.data)

/-- A row of the expenses table (id = rowid; REAL amount modelled as Int,
see the header comment; date stored as TEXT). -/
structure Expense where
  id : Nat
  desc : String
  amount : Int
  who : String
  day : Int
  category : String
  date : String
deriving DecidableEq

/-- A POST /api/expenses body; none models an absent key. -/
structure CreateReq where
  desc : Option String
  amount : Option Int
  who : Option String
  day : Option Int
  category : Option String
  date : Option String

/-- Outcome of `add_expense`: the 400 missing-fields response, the 400
invalid-date response, or 201 with the stored row. -/
inductive CreateResult
  | missingFields
  | invalidDate
  | created (e : Expense)
deriving DecidableEq

/-- Python truthiness of `data.get("date")` in `add_expense`: an absent
key and an empty string both fail the `if date_str:` test. -/
def truthyDate : Option String → Option String
  | some s => if s.isEmpty then none else some s
  | none => none

/-- Embeds `add_expense` (lines 359-418).  `today` is the current date
(day number) used by `get_date_from_day` when no date is supplied;
`nextId` is the AUTOINCREMENT rowid the insert will receive.  Returns
the response and the new table state. -/
def add_expense (led : List Expense) (nextId : Nat) (today : Int) (req : CreateReq) :
    CreateResult × List Expense :=
  if req.desc.isNone || req.amount.isNone || req.who.isNone || req.day.isNone then
    (.missingFields, led)
  else
    let dayReq := req.day.getD 0
    match truthyDate req.date with
    | some s =>
      match parse_date s with
      | none => (.invalidDate, led)
      | some t =>
        let e : Expense :=
          ⟨nextId, req.desc.getD "", req.amount.getD 0, req.who.getD "",
            get_day_from_date (toDayNumber t), req.category.getD "Pending",
            format_date t.1 t.2.1 t.2.2⟩
        (.created e, led ++ [e])
    | none =>
      let e : Expense :=
        ⟨nextId, req.desc.getD "", req.amount.getD 0, req.who.getD "",
          dayReq, req.category.getD "Pending",
          format_days (get_date_from_day dayReq today)⟩
      (.created e, led ++ [e])

/-- A PATCH /api/expenses body; none models an absent key.  Field order
follows the order the source inspects them. -/
structure PatchReq where
  category : Option String
  who : Option String
  desc : Option String
  amount : Option Int
  day : Option Int
  date : Option String

/-- Outcome of `update_expense`: 400 invalid date, 400 no fields,
404 not found, or 200 with the row read back after the UPDATE. -/
inductive PatchResult
  | invalidDate
  | noFields
  | notFound
  | ok (e : Expense)
deriving DecidableEq

/-- True when the body contains none of the six recognized fields, i.e.
the source's `updates` list stays empty. -/
def PatchReq.isEmptyReq (r : PatchReq) : Bool :=
  r.category.isNone && r.who.isNone && r.desc.isNone &&
    r.amount.isNone && r.day.isNone && r.date.isNone

/-- The SET clause of the PATCH applied to one row: each supplied field
overwrites, and a supplied date (already parsed, `pd`) also overwrites
`day` with the derived day-of-week unless the body supplied `day`
itself (lines 456-469). -/
def applyPatch (req : PatchReq) (pd : Option (Nat × Nat × Nat)) (e : Expense) : Expense :=
  { e with
    category := req.category.getD e.category
    who := req.who.getD e.who
    desc := req.desc.getD e.desc
    amount := req.amount.getD e.amount
    day := match pd, req.day with
           | some t, none => get_day_from_date (toDayNumber t)
           | _, some dv => dv
           | none, none => e.day
    date := match pd with
            | some t => format_date t.1 t.2.1 t.2.2
            | none => e.date }

/-- The UPDATE … WHERE id = ? followed by the SELECT read-back
(lines 476-491): rows with the id are rewritten, then the row is looked
up; a missing row yields the 404 response. -/
def runPatch (led : List Expense) (eid : Nat) (req : PatchReq)
    (pd : Option (Nat × Nat × Nat)) : PatchResult × List Expense :=
  let led2 := led.map fun e => if e.id = eid then applyPatch req pd e else e
  match led2.find? (fun e => e.id == eid) with
  | some e => (.ok e, led2)
  | none => (.notFound, led2)

/-- Embeds `update_expense` (lines 420-491).  A supplied date is parsed
first (unparseable → 400 before anything else); a body with no
recognized fields is the 400 no-fields response; otherwise the patch
runs and the row is read back. -/
def update_expense (led : List Expense) (eid : Nat) (req : PatchReq) :
    PatchResult × List Expense :=
  match req.date with
  | some s =>
    match parse_date s with
    | none => (.invalidDate, led)
    | some t => runPatch led eid req (some t)
  | none =>
    if req.isEmptyReq then (.noFields, led)
    else runPatch led eid req none

/-- The settings row (REAL columns modelled as Int, header comment). -/
structure Settings where
  daily_max : Int
  house_goal : Int
  current_savings : Int
deriving DecidableEq

/-- A POST /api/settings body; none models an absent key. -/
structure SettingsReq where
  daily_max : Option Int
  house_goal : Option Int
  current_savings : Option Int

/-- Outcome of `update_settings`: 404 when no settings row exists, else
200 with the merged record. -/
inductive SettingsResult
  | notFound
  | ok (s : Settings)
deriving DecidableEq

/-- Embeds `update_settings` (lines 493-519): fetch the row (404 when
absent), merge each supplied field over it, write it back wholesale and
return it.  The source has no empty-body check. -/
def update_settings (cur : Option Settings) (req : SettingsReq) :
    SettingsResult × Option Settings :=
  match cur with
  | none => (.notFound, none)
  | some st =>
    let st2 : Settings :=
      ⟨req.daily_max.getD st.daily_max, req.house_goal.getD st.house_goal,
        req.current_savings.getD st.current_savings⟩
    (.ok st2, some st2)

/-- The WHERE date >= ? AND date <= ? filter (SQLite TEXT comparison). -/
def expenseInRange (s e : String) (x : Expense) : Bool :=
  strLe s x.date && strLe x.date e

/-- Embeds the expenses query of `get_data` (lines 262-266): range filter
with no ORDER BY, so rows come back in table (rowid) order. -/
def get_data_expenses (led : List Expense) (s e : String) : List Expense :=
  led.filter (expenseInRange s e)

/-- The ORDER BY date ASC, id ASC key as a relation on rows. -/
def expKeyLe (a b : Expense) : Prop :=
  lexLt a.date.data b.date.data = true ∨ (a.date = b.date ∧ a.id ≤ b.id)

instance : DecidableRel expKeyLe := fun a b => by unfold expKeyLe; infer_instance

/-- Embeds the expenses query of `get_expenses_by_week` (lines 329-332):
range filter plus ORDER BY date ASC, id ASC. -/
def by_week_expenses (led : List Expense) (s e : String) : List Expense :=
  List.insertionSort expKeyLe (led.filter (expenseInRange s e))

/-- C1: for every date D, `get_week_range D` returns (S, E) with S a
Sunday (day-of-week index 0 in the Sunday=0 convention), E = S + 6 days,
and S ≤ D ≤ E. -/
theorem c1_week_range (n : Int) :
    get_day_from_date (get_week_range n).1 = 0 ∧
    (get_week_range n).2 = (get_week_range n).1 + 6 ∧
    (get_week_range n).1 ≤ n ∧ n ≤ (get_week_range n).2 := by
  unfold get_week_range get_day_from_date pyWeekday
  refine ⟨?_, ?_, ?_, ?_⟩ <;> simp only [] <;> omega

/-- C7: `get_day_from_date` and `get_date_from_day` are inverse within a
week: placing the day-of-week of a date back into the week of that same
date returns the date itself. -/
theorem c7_day_date_inverse (n : Int) :
    get_date_from_day (get_day_from_date n) n = n := by
  unfold get_date_from_day get_week_range get_day_from_date pyWeekday
  simp only []
  omega

/-- A rendered digit parses back to its value. -/
theorem digitVal_digitChar : ∀ k, k < 10 → digitVal (digitChar k) = some k := by decide

/-- Four rendered digits parse back to the value (years below 10000). -/
theorem parse4_pad4 (y : Nat) (hy : y < 10000) (r : List Char) :
    parse4 (pad4 y ++ r) = some (y, r) := by
  have h1 := digitVal_digitChar (y / 1000 % 10) (Nat.mod_lt _ (by norm_num))
  have h2 := digitVal_digitChar (y / 100 % 10) (Nat.mod_lt _ (by norm_num))
  have h3 := digitVal_digitChar (y / 10 % 10) (Nat.mod_lt _ (by norm_num))
  have h4 := digitVal_digitChar (y % 10) (Nat.mod_lt _ (by norm_num))
  simp only [pad4, List.cons_append, List.nil_append, parse4, h1, h2, h3, h4]
  have : 1000 * (y / 1000 % 10) + 100 * (y / 100 % 10) + 10 * (y / 10 % 10) + y % 10 = y := by
    omega
  rw [this]

/-- Two rendered digits parse back to the value (months and days below
100). -/
theorem parse2_pad2 (m : Nat) (hm : m < 100) (r : List Char) :
    parse2 (pad2 m ++ r) = some (m, r) := by
  have h1 := digitVal_digitChar (m / 10 % 10) (Nat.mod_lt _ (by norm_num))
  have h2 := digitVal_digitChar (m % 10) (Nat.mod_lt _ (by norm_num))
  simp only [pad2, List.cons_append, List.nil_append, parse2, h1, h2]
  have : 10 * (m / 10 % 10) + m % 10 = m := by omega
  rw [this]

/-- No month has more than 31 days. -/
theorem daysInMonth_le (y m : Nat) : daysInMonth y m ≤ 31 := by
  unfold daysInMonth
  split_ifs <;> norm_num

/-- C8: parsing inverts formatting on every valid date, and parsing the
empty string or a malformed string yields none rather than an error. -/
theorem c8_parse_format_round_trip (y m d : Nat) (h : isValidDate y m d = true) :
    parse_date (format_date y m d) = some (y, m, d) ∧
    parse_date "" = none ∧ parse_date "not-a-date" = none := by
  refine ⟨?_, by decide, by decide⟩
  have hv : ((((1 ≤ y ∧ y ≤ 9999) ∧ 1 ≤ m) ∧ m ≤ 12) ∧ 1 ≤ d) ∧ d ≤ daysInMonth y m := by
    simpa [isValidDate, Bool.and_eq_true, decide_eq_true_eq] using h
  have hy : y < 10000 := by omega
  have hm : m < 100 := by omega
  have hd : d < 100 := by
    have := daysInMonth_le y m
    omega
  show parse_date (format_date y m d) = some (y, m, d)
  have hdata : (format_date y m d).data = pad4 y ++ '-' :: (pad2 m ++ '-' :: pad2 d) := rfl
  unfold parse_date
  rw [hdata, parse4_pad4 y hy]
  simp only [Option.some_bind]
  rw [show expectChar '-' ('-' :: (pad2 m ++ '-' :: pad2 d)) = some (pad2 m ++ '-' :: pad2 d)
    from rfl]
  simp only [Option.some_bind]
  rw [parse2_pad2 m hm]
  simp only [Option.some_bind]
  rw [show expectChar '-' ('-' :: pad2 d) = some (pad2 d) from rfl]
  simp only [Option.some_bind]
  rw [show pad2 d = pad2 d ++ [] from (List.append_nil _).symm, parse2_pad2 d hd]
  simp only [Option.some_bind, List.isEmpty_nil, Bool.true_and, h, if_true]

/-- Witness for C8 at the concrete date 2024-03-10. -/
theorem c8_witness :
    isValidDate 2024 3 10 = true ∧
    (parse_date (format_date 2024 3 10) = some (2024, 3, 10) ∧
      parse_date "" = none ∧ parse_date "not-a-date" = none) :=
  ⟨by decide, c8_parse_format_round_trip 2024 3 10 (by decide)⟩

/-- Equal code points give equal characters. -/
theorem char_toNat_inj (a b : Char) (h : a.toNat = b.toNat) : a = b := by
  rw [← Char.ofNat_toNat a, ← Char.ofNat_toNat b, h]

/-- The byte order is trichotomous. -/
theorem lexLt_trichotomy (a b : List Char) : lexLt a b = true ∨ a = b ∨ lexLt b a = true := by
  induction a generalizing b with
  | nil =>
    cases b with
    | nil => simp [lexLt]
    | cons y ys => simp [lexLt]
  | cons x xs ih =>
    cases b with
    | nil => simp [lexLt]
    | cons y ys =>
      rcases Nat.lt_trichotomy x.toNat y.toNat with h | h | h
      · left; simp [lexLt, h]
      · rcases ih ys with h2 | h2 | h2
        · left; simp [lexLt, h, h2]
        · right; left
          have hx : x = y := char_toNat_inj x y h
          rw [hx, h2]
        · right; right; simp [lexLt, h.symm, h2]
      · right; right; simp [lexLt, h]

/-- The byte order is transitive. -/
theorem lexLt_trans (a : List Char) :
    ∀ b c, lexLt a b = true → lexLt b c = true → lexLt a c = true := by
  induction a with
  | nil =>
    intro b c hab hbc
    cases c with
    | nil =>
      cases b with
      | nil => simp [lexLt] at hab
      | cons y ys => simp [lexLt] at hbc
    | cons z zs => simp [lexLt]
  | cons x xs ih =>
    intro b c hab hbc
    cases b with
    | nil => simp [lexLt] at hab
    | cons y ys =>
      cases c with
      | nil => simp [lexLt] at hbc
      | cons z zs =>
        simp only [lexLt] at hab hbc ⊢
        rcases Nat.lt_trichotomy x.toNat y.toNat with h1 | h1 | h1 <;>
          rcases Nat.lt_trichotomy y.toNat z.toNat with h2 | h2 | h2
        · simp [Nat.lt_trans h1 h2]
        · simp [h2 ▸ h1]
        · rw [if_neg (by omega), if_neg (by omega)] at hbc; exact absurd hbc (by simp)
        · simp [h1 ▸ h2]
        · rw [if_neg (by omega), if_pos (by omega)] at hab hbc
          rw [if_neg (by omega), if_pos (by omega)]
          exact ih ys zs hab hbc
        · rw [if_neg (by omega), if_neg (by omega)] at hbc; exact absurd hbc (by simp)
        · rw [if_neg (by omega), if_neg (by omega)] at hab; exact absurd hab (by simp)
        · rw [if_neg (by omega), if_neg (by omega)] at hab; exact absurd hab (by simp)
        · rw [if_neg (by omega), if_neg (by omega)] at hab; exact absurd hab (by simp)

instance : IsTotal Expense expKeyLe := ⟨by
  intro a b
  rcases lexLt_trichotomy a.date.data b.date.data with h | h | h
  · exact Or.inl (Or.inl h)
  · have hd : a.date = b.date := congrArg String.mk h
    rcases Nat.le_total a.id b.id with h2 | h2
    · exact Or.inl (Or.inr ⟨hd, h2⟩)
    · exact Or.inr (Or.inr ⟨hd.symm, h2⟩)
  · exact Or.inr (Or.inl h)⟩

instance : IsTrans Expense expKeyLe := ⟨by
  intro a b c hab hbc
  rcases hab with h1 | h1 <;> rcases hbc with h3 | h3
  · exact Or.inl (lexLt_trans _ _ _ h1 h3)
  · left; rw [← h3.1]; exact h1
  · left; rw [h1.1]; exact h3
  · exact Or.inr ⟨h1.1.trans h3.1, le_trans h1.2 h3.2⟩⟩

/-- C5 counterexample: with two rows whose rowid order disagrees with
date order, the combined-data query (no ORDER BY) returns them in table
order, which is not ordered by date then id — the claim's ordering
guarantee fails on the combined data endpoint. -/
theorem c5_counterexample :
    get_data_expenses
        [⟨1, "a", 1, "A", 2, "Pending", "2024-03-12"⟩,
         ⟨2, "b", 1, "B", 1, "Pending", "2024-03-11"⟩] "2024-03-10" "2024-03-16" =
      [⟨1, "a", 1, "A", 2, "Pending", "2024-03-12"⟩,
       ⟨2, "b", 1, "B", 1, "Pending", "2024-03-11"⟩] ∧
    ¬ List.Sorted expKeyLe
        [(⟨1, "a", 1, "A", 2, "Pending", "2024-03-12"⟩ : Expense),
         ⟨2, "b", 1, "B", 1, "Pending", "2024-03-11"⟩] := by
  constructor
  · decide
  · decide

/-- C5 (amended): the by-week query returns exactly the expenses whose
date lies in the inclusive range, ordered by date then id; the combined
data query returns exactly the same set but in table order, with no
ordering guarantee. -/
theorem c5_week_filtered_listing (led : List Expense) (s e : String) :
    List.Sorted expKeyLe (by_week_expenses led s e) ∧
    List.Perm (by_week_expenses led s e) (get_data_expenses led s e) ∧
    (∀ x, x ∈ by_week_expenses led s e ↔
      x ∈ led ∧ strLe s x.date = true ∧ strLe x.date e = true) ∧
    (∀ x, x ∈ get_data_expenses led s e ↔
      x ∈ led ∧ strLe s x.date = true ∧ strLe x.date e = true) := by
  refine ⟨List.sorted_insertionSort _ _, List.perm_insertionSort _ _, ?_, ?_⟩
  · intro x
    have hp : List.Perm (by_week_expenses led s e) (led.filter (expenseInRange s e)) :=
      List.perm_insertionSort _ _
    rw [hp.mem_iff]
    simp [List.mem_filter, expenseInRange, Bool.and_eq_true, and_assoc]
  · intro x
    simp [get_data_expenses, List.mem_filter, expenseInRange, Bool.and_eq_true, and_assoc]

/-- Rewriting the rows with a given id and then looking that id up finds
the rewritten row, when the rewrite preserves ids. -/
theorem find?_map_update (led : List Expense) (eid : Nat) (f : Expense → Expense)
    (hf : ∀ x, (f x).id = x.id) :
    (led.map fun x => if x.id = eid then f x else x).find? (fun x => x.id == eid) =
      Option.map f (led.find? (fun x => x.id == eid)) := by
  induction led with
  | nil => rfl
  | cons a tl ih =>
    by_cases h : a.id = eid
    · simp only [List.map_cons, if_pos h]
      rw [List.find?_cons_of_pos _ (by simp [hf, h]), List.find?_cons_of_pos _ (by simp [h])]
      rfl
    · simp only [List.map_cons, if_neg h]
      rw [List.find?_cons_of_neg _ (by simp [h]), List.find?_cons_of_neg _ (by simp [h])]
      exact ih

/-- Patching an id present in the table rewrites that row and reads the
rewritten row back. -/
theorem runPatch_found (led : List Expense) (eid : Nat) (req : PatchReq)
    (pd : Option (Nat × Nat × Nat)) (e : Expense)
    (he : led.find? (fun x => x.id == eid) = some e) :
    runPatch led eid req pd =
      (.ok (applyPatch req pd e),
        led.map fun x => if x.id = eid then applyPatch req pd x else x) := by
  simp only [runPatch]
  rw [find?_map_update led eid (applyPatch req pd) (fun x => rfl), he]
  rfl

/-- The read-back after the UPDATE misses exactly when the id was not in
the table to begin with. -/
theorem runPatch_notFound_iff (led : List Expense) (eid : Nat) (req : PatchReq)
    (pd : Option (Nat × Nat × Nat)) :
    (runPatch led eid req pd).1 = .notFound ↔
      led.find? (fun x => x.id == eid) = none := by
  simp only [runPatch]
  rw [find?_map_update led eid (applyPatch req pd) (fun x => rfl)]
  cases led.find? (fun x => x.id == eid) <;> simp

/-- C4: a patch that supplies a parseable date recomputes the stored day
from that date when the body has no day field, and keeps the caller's
explicit day when the body supplies day as well. -/
theorem c4_patch_day_precedence (led : List Expense) (eid : Nat) (req : PatchReq)
    (s : String) (t : Nat × Nat × Nat) (e : Expense)
    (hs : req.date = some s) (hp : parse_date s = some t)
    (he : led.find? (fun x => x.id == eid) = some e) :
    ∃ e2 led2, update_expense led eid req = (.ok e2, led2) ∧
      led2.find? (fun x => x.id == eid) = some e2 ∧
      (req.day = none → e2.day = get_day_from_date (toDayNumber t)) ∧
      (∀ dv, req.day = some dv → e2.day = dv) := by
  refine ⟨applyPatch req (some t) e,
    led.map fun x => if x.id = eid then applyPatch req (some t) x else x, ?_, ?_, ?_, ?_⟩
  · simp only [update_expense, hs, hp]
    exact runPatch_found led eid req (some t) e he
  · rw [find?_map_update led eid (applyPatch req (some t)) (fun x => rfl), he]
    rfl
  · intro hd
    simp [applyPatch, hd]
  · intro dv hd
    simp [applyPatch, hd]

/-- Witness for C4: patching date 2024-03-13 onto an expense dated
2024-03-10. -/
theorem c4_witness :
    ∃ e2 led2,
      update_expense [⟨1, "x", 5, "A", 0, "Pending", "2024-03-10"⟩] 1
          ⟨none, none, none, none, none, some "2024-03-13"⟩ = (.ok e2, led2) ∧
      led2.find? (fun x => x.id == 1) = some e2 ∧
      ((⟨none, none, none, none, none, some "2024-03-13"⟩ : PatchReq).day = none →
        e2.day = get_day_from_date (toDayNumber (2024, 3, 13))) ∧
      (∀ dv, (⟨none, none, none, none, none, some "2024-03-13"⟩ : PatchReq).day = some dv →
        e2.day = dv) :=
  c4_patch_day_precedence [⟨1, "x", 5, "A", 0, "Pending", "2024-03-10"⟩] 1
    ⟨none, none, none, none, none, some "2024-03-13"⟩ "2024-03-13" (2024, 3, 13)
    ⟨1, "x", 5, "A", 0, "Pending", "2024-03-10"⟩ rfl (by decide) rfl

/-- C2 counterexample: patching only day = 3 onto an expense dated
2024-03-10 (a Sunday) leaves the stored date unchanged instead of moving
it into the current week, and the day = dayOfWeek(date) invariant is
broken after the write. -/
theorem c2_counterexample :
    (update_expense [⟨1, "lunch", 5, "A", 0, "Pending", "2024-03-10"⟩] 1
        ⟨none, none, none, none, some 3, none⟩).2 =
      [⟨1, "lunch", 5, "A", 3, "Pending", "2024-03-10"⟩] ∧
    get_day_from_date_of_str "2024-03-10" ≠ 3 := by
  constructor
  · decide
  · decide

/-- C2 (amended): a create that supplies only day stores that day with
the date placed into today's week (and the invariant holds when the day
is in 0..6); an update that supplies only day changes the stored day and
leaves the stored date unchanged, so the invariant need not hold after
such a patch. -/
theorem c2_day_only_writes (led : List Expense) (nextId : Nat) (today : Int)
    (req : CreateReq) (dv : Int) (eid : Nat) (e : Expense) (preq : PatchReq) :
    (req.desc.isSome = true → req.amount.isSome = true → req.who.isSome = true →
      req.day = some dv → truthyDate req.date = none →
      ∃ e2, add_expense led nextId today req = (.created e2, led ++ [e2]) ∧
        e2.day = dv ∧ e2.date = format_days (get_date_from_day dv today) ∧
        (0 ≤ dv → dv ≤ 6 → get_day_from_date (get_date_from_day dv today) = dv)) ∧
    (preq.day = some dv → preq.date = none →
      led.find? (fun x => x.id == eid) = some e →
      ∃ e2 led2, update_expense led eid preq = (.ok e2, led2) ∧
        e2.day = dv ∧ e2.date = e.date) := by
  constructor
  · intro h1 h2 h3 h4 h5
    obtain ⟨dsc, hdsc⟩ := Option.isSome_iff_exists.mp h1
    obtain ⟨amt, hamt⟩ := Option.isSome_iff_exists.mp h2
    obtain ⟨w, hw⟩ := Option.isSome_iff_exists.mp h3
    refine ⟨⟨nextId, dsc, amt, w, dv, req.category.getD "Pending",
      format_days (get_date_from_day dv today)⟩, ?_, rfl, rfl, ?_⟩
    · simp [add_expense, hdsc, hamt, hw, h4, h5]
    · intro hd1 hd2
      unfold get_date_from_day get_week_range get_day_from_date pyWeekday
      simp only []
      omega
  · intro hpd hpdate hfind
    have hne : preq.isEmptyReq = false := by
      simp [PatchReq.isEmptyReq, hpd]
    refine ⟨applyPatch preq none e,
      led.map fun x => if x.id = eid then applyPatch preq none x else x, ?_, ?_, ?_⟩
    · simp only [update_expense, hpdate, hne, Bool.false_eq_true, if_false]
      exact runPatch_found led eid preq none e hfind
    · simp [applyPatch, hpd]
    · simp [applyPatch]

/-- Witness for C2 at concrete inputs: a create with day 3 when today is
2024-03-10 (day number 19792), and a day-only patch of the expense with
id 1. -/
theorem c2_witness :
    (∃ e2, add_expense [⟨1, "x", 5, "A", 0, "Pending", "2024-03-10"⟩] 2 19792
        ⟨some "x", some 5, some "A", some 3, none, none⟩ =
        (.created e2, [⟨1, "x", 5, "A", 0, "Pending", "2024-03-10"⟩] ++ [e2]) ∧
      e2.day = 3 ∧ e2.date = format_days (get_date_from_day 3 19792) ∧
      (0 ≤ (3 : Int) → (3 : Int) ≤ 6 → get_day_from_date (get_date_from_day 3 19792) = 3)) ∧
    (∃ e2 led2, update_expense [⟨1, "x", 5, "A", 0, "Pending", "2024-03-10"⟩] 1
        ⟨none, none, none, none, some 3, none⟩ = (.ok e2, led2) ∧
      e2.day = 3 ∧ e2.date = "2024-03-10") := by
  have h := c2_day_only_writes [⟨1, "x", 5, "A", 0, "Pending", "2024-03-10"⟩] 2 19792
    ⟨some "x", some 5, some "A", some 3, none, none⟩ 3 1
    ⟨1, "x", 5, "A", 0, "Pending", "2024-03-10"⟩ ⟨none, none, none, none, some 3, none⟩
  exact ⟨h.1 rfl rfl rfl rfl rfl, h.2 rfl rfl rfl⟩

/-- C6 counterexample: a settings update whose body has zero recognized
fields is not rejected with an error — it succeeds (HTTP 200) and
returns the stored settings unchanged. -/
theorem c6_counterexample :
    update_settings (some ⟨50, 100000, 0⟩) ⟨none, none, none⟩ =
      (.ok ⟨50, 100000, 0⟩, some ⟨50, 100000, 0⟩) := rfl

/-- C6 (amended): an expense patch with zero recognized fields fails
with the no-fields 400 error leaving the table unchanged; a settings
update with zero recognized fields succeeds and rewrites the stored
settings unchanged. -/
theorem c6_noop_update (led : List Expense) (eid : Nat) (st : Settings) :
    update_expense led eid ⟨none, none, none, none, none, none⟩ = (.noFields, led) ∧
    update_settings (some st) ⟨none, none, none⟩ = (.ok st, some st) :=
  ⟨rfl, rfl⟩

/-- C10: in the patch operation the date-parse check and the no-fields
check precede the existence check: an unparseable date or an empty body
errors with the table unchanged whatever the id, and the 404 arises only
for a body with at least one recognized field, a parseable date if any,
and an id absent from the table. -/
theorem c10_patch_check_order (led : List Expense) (eid : Nat) (req : PatchReq) :
    (∀ s, req.date = some s → parse_date s = none →
      update_expense led eid req = (.invalidDate, led)) ∧
    (req.isEmptyReq = true → update_expense led eid req = (.noFields, led)) ∧
    ((update_expense led eid req).1 = .notFound →
      req.isEmptyReq = false ∧
      (∀ s, req.date = some s → (parse_date s).isSome = true) ∧
      led.find? (fun x => x.id == eid) = none) := by
  refine ⟨?_, ?_, ?_⟩
  · intro s hs hp
    simp [update_expense, hs, hp]
  · intro hempty
    have hdate : req.date = none := by
      rcases hq : req.date with _ | s
      · rfl
      · exfalso
        simp [PatchReq.isEmptyReq, hq] at hempty
    simp [update_expense, hdate, hempty]
  · intro hnf
    rcases hq : req.date with _ | s
    · by_cases he : req.isEmptyReq = true
      · simp [update_expense, hq, he] at hnf
      · have he2 : req.isEmptyReq = false := by simpa using he
        refine ⟨he2, ?_, ?_⟩
        · intro s2 hs2
          cases hs2
        · simp only [update_expense, hq, he2, Bool.false_eq_true, if_false] at hnf
          exact (runPatch_notFound_iff led eid req none).mp hnf
    · cases hp : parse_date s with
      | none => simp [update_expense, hq, hp] at hnf
      | some t =>
        refine ⟨?_, ?_, ?_⟩
        · simp [PatchReq.isEmptyReq, hq]
        · intro s2 hs2
          cases hs2
          simp [hp]
        · simp only [update_expense, hq, hp] at hnf
          exact (runPatch_notFound_iff led eid req (some t)).mp hnf

/-- Witness for C10: a patch with an unparseable date on a missing id is
rejected as invalid date with the table unchanged. -/
theorem c10_witness :
    update_expense [] 7 ⟨none, none, none, none, none, some "bad"⟩ = (.invalidDate, []) :=
  (c10_patch_check_order [] 7 ⟨none, none, none, none, none, some "bad"⟩).1 "bad" rfl (by decide)

/-- C3: creation with the required fields present: a supplied (truthy)
date that parses determines the stored day (a caller-supplied day is
ignored) and is stored re-formatted; an absent date is computed from the
day placed into the week of today; category defaults to Pending when
absent. -/
theorem c3_create_semantics (led : List Expense) (nextId : Nat) (today : Int) (req : CreateReq)
    (h1 : req.desc.isSome = true) (h2 : req.amount.isSome = true)
    (h3 : req.who.isSome = true) (h4 : req.day.isSome = true) :
    (∀ s t, truthyDate req.date = some s → parse_date s = some t →
      ∃ e, add_expense led nextId today req = (.created e, led ++ [e]) ∧
        e.day = get_day_from_date (toDayNumber t) ∧
        e.date = format_date t.1 t.2.1 t.2.2 ∧
        (req.category = none → e.category = "Pending")) ∧
    (∀ dv, truthyDate req.date = none → req.day = some dv →
      ∃ e, add_expense led nextId today req = (.created e, led ++ [e]) ∧
        e.day = dv ∧
        e.date = format_days (get_date_from_day dv today) ∧
        (req.category = none → e.category = "Pending")) := by
  obtain ⟨dsc, hdsc⟩ := Option.isSome_iff_exists.mp h1
  obtain ⟨amt, hamt⟩ := Option.isSome_iff_exists.mp h2
  obtain ⟨w, hw⟩ := Option.isSome_iff_exists.mp h3
  obtain ⟨dv0, hdv0⟩ := Option.isSome_iff_exists.mp h4
  constructor
  · intro s t hts hp
    refine ⟨⟨nextId, dsc, amt, w, get_day_from_date (toDayNumber t),
      req.category.getD "Pending", format_date t.1 t.2.1 t.2.2⟩, ?_, rfl, rfl, ?_⟩
    · simp [add_expense, hdsc, hamt, hw, hdv0, hts, hp]
    · intro hc
      simp [hc]
  · intro dv hts hdv
    refine ⟨⟨nextId, dsc, amt, w, dv, req.category.getD "Pending",
      format_days (get_date_from_day dv today)⟩, ?_, rfl, rfl, ?_⟩
    · simp [add_expense, hdsc, hamt, hw, hdv, hts]
    · intro hc
      simp [hc]

/-- Witness for C3 at the spec's examples: date 2024-03-10 (a Sunday)
with a conflicting caller day stores day 0; day 3 with no date, today
being 2024-03-10 (day number 19792), stores date 2024-03-13. -/
theorem c3_witness :
    (∃ e, add_expense [] 1 19792 ⟨some "x", some 5, some "A", some 9, none, some "2024-03-10"⟩ =
        (.created e, [] ++ [e]) ∧
      e.day = get_day_from_date (toDayNumber (2024, 3, 10)) ∧
      e.date = format_date 2024 3 10 ∧
      ((⟨some "x", some 5, some "A", some 9, none, some "2024-03-10"⟩ : CreateReq).category =
          none → e.category = "Pending")) ∧
    get_day_from_date (toDayNumber (2024, 3, 10)) = 0 ∧
    (∃ e, add_expense [] 1 19792 ⟨some "x", some 5, some "A", some 3, none, none⟩ =
        (.created e, [] ++ [e]) ∧
      e.day = 3 ∧
      e.date = format_days (get_date_from_day 3 19792) ∧
      ((⟨some "x", some 5, some "A", some 3, none, none⟩ : CreateReq).category =
          none → e.category = "Pending")) ∧
    format_days (get_date_from_day 3 19792) = "2024-03-13" := by
  refine ⟨?_, by decide, ?_, by decide⟩
  · exact (c3_create_semantics [] 1 19792
      ⟨some "x", some 5, some "A", some 9, none, some "2024-03-10"⟩
      rfl rfl rfl rfl).1 "2024-03-10" (2024, 3, 10) rfl (by decide)
  · exact (c3_create_semantics [] 1 19792
      ⟨some "x", some 5, some "A", some 3, none, none⟩ rfl rfl rfl rfl).2 3 rfl rfl

/-- C9: the 0-6 range of day is not enforced: `get_date_from_day` is
total and equals week start plus the day for every integer, a create
supplying an out-of-range day with no date succeeds and stores that day,
and the stored date lies outside the reference week. -/
theorem c9_day_range_unenforced (led : List Expense) (nextId : Nat) (today : Int)
    (req : CreateReq) (dv : Int)
    (h1 : req.desc.isSome = true) (h2 : req.amount.isSome = true)
    (h3 : req.who.isSome = true) (h4 : req.day = some dv)
    (h5 : truthyDate req.date = none) :
    get_date_from_day dv today = (get_week_range today).1 + dv ∧
    (∃ e, add_expense led nextId today req = (.created e, led ++ [e]) ∧
      e.day = dv ∧ e.date = format_days (get_date_from_day dv today)) ∧
    (dv < 0 ∨ 6 < dv →
      ¬ ((get_week_range today).1 ≤ get_date_from_day dv today ∧
        get_date_from_day dv today ≤ (get_week_range today).2)) := by
  obtain ⟨dsc, hdsc⟩ := Option.isSome_iff_exists.mp h1
  obtain ⟨amt, hamt⟩ := Option.isSome_iff_exists.mp h2
  obtain ⟨w, hw⟩ := Option.isSome_iff_exists.mp h3
  refine ⟨rfl, ?_, ?_⟩
  · refine ⟨⟨nextId, dsc, amt, w, dv, req.category.getD "Pending",
      format_days (get_date_from_day dv today)⟩, ?_, rfl, rfl⟩
    simp [add_expense, hdsc, hamt, hw, h4, h5]
  · intro hout
    unfold get_date_from_day get_week_range pyWeekday
    simp only []
    omega

/-- Witness for C9: creating with day 9 when today is 2024-03-10 stores
day 9 with a date beyond the week's Saturday. -/
theorem c9_witness :
    get_date_from_day 9 19792 = (get_week_range 19792).1 + 9 ∧
    (∃ e, add_expense [] 1 19792 ⟨some "x", some 5, some "A", some 9, none, none⟩ =
        (.created e, [] ++ [e]) ∧
      e.day = 9 ∧ e.date = format_days (get_date_from_day 9 19792)) ∧
    ((9 : Int) < 0 ∨ (6 : Int) < 9 →
      ¬ ((get_week_range 19792).1 ≤ get_date_from_day 9 19792 ∧
        get_date_from_day 9 19792 ≤ (get_week_range 19792).2)) :=
  c9_day_range_unenforced [] 1 19792 ⟨some "x", some 5, some "A", some 9, none, none⟩ 9
    rfl rfl rfl rfl rfl

end SavingsWeb
